import Mathlib

/-!
Shallow embedding of the local music player server (the `MusicEngine` class in
`music_server.py` together with the database helpers in `yt_db.py`), plus the
theorems that settle the specification claims about it.

Conventions of the embedding:
* Python dictionaries holding song data become the `Song` structure; only the
  keys the engine actually reads are modelled as typed fields.
* The VLC media player is modelled by the single observable the spec cares
  about, its effective output volume (`player_volume`), updated exactly where
  the source calls `audio_set_volume`.
* The file system is a list of existing paths (`fs`), and the `music` table is
  a list of rows (`db`), both passed explicitly to the operations that read
  them.
* `sqlite3` statements against the playlist tables are modelled on a `Storage`
  value; a Boolean `dbOk` parameter tells whether the statement block raises
  (Python `except` branch) or succeeds.  Memory mutations keep the exact
  position they have in the source relative to the `try` block.
-/

namespace MusicPlayer

/-- Repeat mode of the engine: the `self.repeat` field, one of
`off`, `one`, `all`. -/
inductive RepeatMode where
  | off
  | one
  | all
  deriving DecidableEq, Repr

/-- Song snapshot dictionary as built by `music_server.py`.  The engine only
ever reads the keys modelled here (`file_location` being the load-bearing
one). -/
structure Song where
  file_location : String
  name : String
  title : String
  singer : Option String := none
  duration : Option Nat := none
  genre : Option String := none
  deriving DecidableEq, Repr, Inhabited

/-- Row of the `music` table as created by `yt_db.ensure_table`. -/
structure MusicRow where
  id : Nat
  name : String
  metadata : String := ""
  singer : Option String := none
  cinema : Option String := none
  album : Option String := none
  duration : Option Nat := none
  file_location : String
  genre : Option String := none
  rating : Option Int := none
  deriving DecidableEq, Repr

/-- In-memory state of `MusicEngine` (`__init__`), restricted to the fields the
claims are about.  `player_volume` stands for the VLC device output level, the
value last passed to `audio_set_volume`. -/
structure EngineState where
  current_song : Option Song
  queue : List Song
  playlists : List (String × List Song)
  current_playlist : List Song
  current_playlist_name : Option String
  playlist_index : Nat
  history : List Song
  is_playing : Bool
  volume : Int
  is_muted : Bool
  shuffle : Bool
  repeatMode : RepeatMode
  player_volume : Int
  deriving DecidableEq, Repr

/-- Result dictionaries returned by the engine methods, collapsed to the
variants that actually occur. -/
inductive OpResult where
  | playing (song : Song)
  | status (s : String)
  | volumeIs (v : Int)
  | mutedIs (b : Bool)
  | error (msg : String)
  deriving DecidableEq, Repr

/-- Tests whether a result dictionary is of the `{error: ...}` shape. -/
def OpResult.isError : OpResult → Bool
  | .error _ => true
  | _ => false

/-- Splits a character list on a separator character; always returns at least
one (possibly empty) part. -/
def splitOnChar (c : Char) : List Char → List (List Char)
  | [] => [[]]
  | x :: xs =>
    match splitOnChar c xs with
    | [] => [[]]
    | y :: ys => if x = c then [] :: y :: ys else (x :: y) :: ys

/-- Joins character-list parts with a separator character. -/
def joinWith (c : Char) : List (List Char) → List Char
  | [] => []
  | [x] => x
  | x :: y :: ys => x ++ c :: joinWith c (y :: ys)

/-- Last path component, as `os.path.basename` on a POSIX path. -/
def basename (p : String) : String :=
  String.mk ((splitOnChar '/' p.data).getLastD p.data)

/-- Name without the final extension, as `os.path.splitext(...)[0]`. -/
def stemOf (s : String) : String :=
  let parts := splitOnChar '.' s.data
  if parts.length ≤ 1 then s else String.mk (joinWith '.' parts.dropLast)

/-- Appending to `self.history`, a `deque(maxlen=50)`: the new element goes to
the right and elements fall off the left once the length would exceed 50. -/
def histAppend (h : List Song) (s : Song) : List Song :=
  let h2 := h ++ [s]
  if 50 < h2.length then h2.drop (h2.length - 50) else h2

/-- Song snapshot chosen by `play_file`: the `_get_song_info` lookup of the
`music` table by exact path match, falling back to the filename-derived
dictionary built inline in `play_file`. -/
def resolveSong (db : List MusicRow) (path : String) : Song :=
  match db.find? (fun r => r.file_location == path) with
  | some r => { file_location := path, name := r.name, title := r.name,
                singer := r.singer, duration := r.duration, genre := r.genre }
  | none => { file_location := path, title := basename path,
              name := stemOf (basename path) }

/-- The engine method `play_file`: missing file is an error; otherwise the
snapshot is enriched from the `music` table by exact path match
(`_get_song_info`), falling back to filename-derived metadata, the song is
made current, marked playing, appended to history, and the stored volume is
pushed to the device unless muted. -/
def play_file (fs : List String) (db : List MusicRow) (st : EngineState) (path : String) :
    OpResult × EngineState :=
  if ¬ fs.contains path then
    (.error ("File not found: " ++ path), st)
  else
    let song : Song := resolveSong db path
    let st1 := { st with current_song := some song, is_playing := true,
                         history := histAppend st.history song }
    let st2 := if ¬ st1.is_muted then { st1 with player_volume := st1.volume } else st1
    (.playing song, st2)

/-- The engine method `stop`: stops the device, clears the playing flag, the
current song and the current playlist name.  Note that `current_playlist` and
`playlist_index` are left as they are. -/
def stop (st : EngineState) : OpResult × EngineState :=
  (.status "stopped",
   { st with is_playing := false, current_song := none, current_playlist_name := none })

/-- The engine method `next`: pop and play the queue head if the queue is
non-empty; otherwise advance the bound playlist index, wrapping to 0 on
repeat `all` and reporting `end_of_playlist` otherwise; otherwise report
`no_next_song`. -/
def next (fs : List String) (db : List MusicRow) (st : EngineState) :
    OpResult × EngineState :=
  match st.queue with
  | nextSong :: rest =>
      play_file fs db { st with queue := rest } nextSong.file_location
  | [] =>
      if st.current_playlist ≠ [] then
        let i := st.playlist_index + 1
        if st.current_playlist.length ≤ i then
          if st.repeatMode = .all then
            play_file fs db { st with playlist_index := 0 }
              ((st.current_playlist.getD 0 default).file_location)
          else
            (.status "end_of_playlist", { st with playlist_index := i })
        else
          play_file fs db { st with playlist_index := i }
            ((st.current_playlist.getD i default).file_location)
      else
        (.status "no_next_song", st)

/-- The private method `_handle_song_end`, run by the monitor thread when the
device reports end of track: repeat `one` replays the current song; otherwise
the queue is popped, else the bound playlist advances (calling `stop` past the
end unless repeat is `all`), else `stop`. -/
def handle_song_end (fs : List String) (db : List MusicRow) (st : EngineState) :
    EngineState :=
  if st.repeatMode = .one then
    (play_file fs db st ((st.current_song.map Song.file_location).getD "")).2
  else
    match st.queue with
    | nextSong :: rest =>
        (play_file fs db { st with queue := rest } nextSong.file_location).2
    | [] =>
        if st.current_playlist ≠ [] then
          let i := st.playlist_index + 1
          if st.current_playlist.length ≤ i then
            if st.repeatMode = .all then
              (play_file fs db { st with playlist_index := 0 }
                ((st.current_playlist.getD 0 default).file_location)).2
            else
              (stop { st with playlist_index := i }).2
          else
            (play_file fs db { st with playlist_index := i }
              ((st.current_playlist.getD i default).file_location)).2
        else
          (stop st).2

/-- The engine method `set_volume`: clamp to [0,100] with
`max(0, min(100, level))`, store, and push to the device unless muted. -/
def set_volume (st : EngineState) (level : Int) : OpResult × EngineState :=
  let v := max 0 (min 100 level)
  let st1 := { st with volume := v }
  let st2 := if ¬ st1.is_muted then { st1 with player_volume := v } else st1
  (.volumeIs v, st2)

/-- The engine method `toggle_mute`: unmuting restores the stored volume to the
device, muting drives the device to 0 leaving the stored volume alone. -/
def toggle_mute (st : EngineState) : OpResult × EngineState :=
  if st.is_muted then
    (.mutedIs false, { st with is_muted := false, player_volume := st.volume })
  else
    (.mutedIs true, { st with is_muted := true, player_volume := 0 })

/-! Basic facts about `play_file`. -/

theorem resolveSong_file_location (db : List MusicRow) (path : String) :
    (resolveSong db path).file_location = path := by
  unfold resolveSong
  split <;> rfl

theorem play_file_frame (fs : List String) (db : List MusicRow) (st : EngineState)
    (path : String) :
    (play_file fs db st path).2.playlist_index = st.playlist_index ∧
    (play_file fs db st path).2.queue = st.queue ∧
    (play_file fs db st path).2.current_playlist = st.current_playlist ∧
    (play_file fs db st path).2.current_playlist_name = st.current_playlist_name ∧
    (play_file fs db st path).2.playlists = st.playlists ∧
    (play_file fs db st path).2.volume = st.volume ∧
    (play_file fs db st path).2.is_muted = st.is_muted ∧
    (play_file fs db st path).2.repeatMode = st.repeatMode := by
  unfold play_file
  split
  · exact ⟨rfl, rfl, rfl, rfl, rfl, rfl, rfl, rfl⟩
  · dsimp only
    split <;> exact ⟨rfl, rfl, rfl, rfl, rfl, rfl, rfl, rfl⟩

theorem play_file_of_contains (fs : List String) (db : List MusicRow) (st : EngineState)
    (path : String) (h : fs.contains path = true) :
    (play_file fs db st path).1 = .playing (resolveSong db path) ∧
    (play_file fs db st path).2.is_playing = true ∧
    (play_file fs db st path).2.current_song = some (resolveSong db path) ∧
    (play_file fs db st path).2.history = histAppend st.history (resolveSong db path) := by
  unfold play_file
  split
  · rename_i hcond
    exact absurd h hcond
  · dsimp only
    split <;> exact ⟨rfl, rfl, rfl, rfl⟩

theorem play_file_fst_not_status (fs : List String) (db : List MusicRow) (st : EngineState)
    (path msg : String) :
    (play_file fs db st path).1 ≠ .status msg := by
  unfold play_file
  split <;> simp

theorem next_queue_empty_playlist_bound (fs : List String) (db : List MusicRow)
    (st2 : EngineState) (hq2 : st2.queue = []) (hp2 : st2.current_playlist ≠ []) :
    (next fs db st2).1 ≠ .status "no_next_song" := by
  unfold next
  rw [hq2]
  dsimp only
  rw [if_pos hp2]
  split
  · split
    · exact play_file_fst_not_status _ _ _ _ _
    · simp
  · exact play_file_fst_not_status _ _ _ _ _

theorem next_queue_empty_playlist_empty (fs : List String) (db : List MusicRow)
    (st2 : EngineState) (hq2 : st2.queue = []) (hp2 : st2.current_playlist = []) :
    next fs db st2 = (.status "no_next_song", st2) := by
  unfold next
  rw [hq2]
  dsimp only
  rw [if_neg (by simp [hp2])]

/-- C1: in every state with a non-empty queue and a bound active playlist, the
`next` operation pops the queue head and plays it (leaving the playlist index
untouched), the end-of-track handler does the same when repeat is not `one`,
and the resolution order is queue first, then active playlist, then the
`no_next_song` report. -/
theorem claim_C1_queue_priority
    (fs : List String) (db : List MusicRow) (st : EngineState)
    (nm : String) (s : Song) (rest : List Song)
    (hq : st.queue = s :: rest)
    (hb : st.current_playlist_name = some nm)
    (hp : st.current_playlist ≠ []) :
    next fs db st = play_file fs db { st with queue := rest } s.file_location ∧
    (next fs db st).2.playlist_index = st.playlist_index ∧
    (next fs db st).2.queue = rest ∧
    (fs.contains s.file_location = true →
      (next fs db st).2.is_playing = true ∧
      (next fs db st).1 = .playing (resolveSong db s.file_location) ∧
      (resolveSong db s.file_location).file_location = s.file_location) ∧
    (st.repeatMode ≠ .one → handle_song_end fs db st = (next fs db st).2) ∧
    (∀ st2 : EngineState, st2.queue = [] → st2.current_playlist ≠ [] →
      (next fs db st2).1 ≠ .status "no_next_song") ∧
    (∀ st2 : EngineState, st2.queue = [] → st2.current_playlist = [] →
      next fs db st2 = (.status "no_next_song", st2)) := by
  have h1 : next fs db st = play_file fs db { st with queue := rest } s.file_location := by
    unfold next
    rw [hq]
  refine ⟨h1, ?_, ?_, ?_, ?_, ?_, ?_⟩
  · rw [h1]
    exact (play_file_frame fs db { st with queue := rest } s.file_location).1
  · rw [h1]
    exact (play_file_frame fs db { st with queue := rest } s.file_location).2.1
  · intro hc
    have h2 := play_file_of_contains fs db { st with queue := rest } s.file_location hc
    rw [h1]
    exact ⟨h2.2.1, h2.1, resolveSong_file_location db s.file_location⟩
  · intro hrep
    rw [h1]
    unfold handle_song_end
    rw [if_neg hrep, hq]
  · intro st2 hq2 hp2
    exact next_queue_empty_playlist_bound fs db st2 hq2 hp2
  · intro st2 hq2 hp2
    exact next_queue_empty_playlist_empty fs db st2 hq2 hp2

/-! Concrete songs, file system and states used for witnesses and
counterexamples.  The two-part names are chosen so that the filename-derived
fallback of `play_file` reproduces the snapshot exactly. -/

/-- Sample song stored at `/m/a.mp3`. -/
def songA : Song := { file_location := "/m/a.mp3", name := "a", title := "a.mp3" }

/-- Sample song stored at `/m/b.mp3`. -/
def songB : Song := { file_location := "/m/b.mp3", name := "b", title := "b.mp3" }

/-- Sample song stored at `/m/c.mp3`. -/
def songC : Song := { file_location := "/m/c.mp3", name := "c", title := "c.mp3" }

/-- Sample file system on which the three sample songs exist. -/
def fsAll : List String := ["/m/a.mp3", "/m/b.mp3", "/m/c.mp3"]

/-- A freshly initialised engine state (the `__init__` defaults) with a loaded
Library. -/
def baseState : EngineState :=
  { current_song := none, queue := [],
    playlists := [("Library", [songA, songB, songC])],
    current_playlist := [], current_playlist_name := none, playlist_index := 0,
    history := [], is_playing := false, volume := 75, is_muted := false,
    shuffle := false, repeatMode := .off, player_volume := 75 }

/-- State with a queued song and a bound playlist, for the C1 witness. -/
def stW1 : EngineState :=
  { baseState with
    queue := [songC],
    playlists := [("Library", [songA, songB, songC]), ("P", [songA, songB])],
    current_playlist := [songA, songB], current_playlist_name := some "P",
    playlist_index := 0, current_song := some songA, is_playing := true }

theorem claim_C1_queue_priority_witness :
    stW1.queue = songC :: [] ∧ stW1.current_playlist_name = some "P" ∧
    stW1.current_playlist ≠ [] ∧
    (next fsAll [] stW1).2.playlist_index = stW1.playlist_index ∧
    (next fsAll [] stW1).2.queue = [] := by
  have h := claim_C1_queue_priority fsAll [] stW1 "P" songC [] rfl rfl (by decide)
  exact ⟨rfl, rfl, by decide, h.2.1, h.2.2.1⟩

/-- State sitting at the last index of a bound two-song playlist with an empty
queue and repeat `off`, while a song is still playing. -/
def stC3 : EngineState :=
  { baseState with
    playlists := [("Library", [songA, songB, songC]), ("P", [songA, songB])],
    current_playlist := [songA, songB], current_playlist_name := some "P",
    playlist_index := 1, current_song := some songB, is_playing := true,
    history := [songA, songB] }

/-- C3 counterexample: at the last index with an empty queue and repeat `off`,
`next` reports `end_of_playlist` but does not stop playback: the playing flag
stays `true` and the current song stays loaded, contradicting the claim that
playback is left stopped. -/
theorem claim_C3_counterexample :
    (next fsAll [] stC3).1 = .status "end_of_playlist" ∧
    (next fsAll [] stC3).2.is_playing = true ∧
    (next fsAll [] stC3).2.current_song = some songB := by
  decide

/-- C3 amended: with a bound playlist at its last index, an empty queue and
repeat `off`, `next` reports `end_of_playlist` and moves the index past the
end, but leaves the current song and the playing flag exactly as they were;
it is the automatic end-of-track handler that stops playback (clearing the
playing flag, the current song and the playlist name) in that configuration. -/
theorem claim_C3_amended (fs : List String) (db : List MusicRow) (st : EngineState)
    (nm : String)
    (hq : st.queue = [])
    (hb : st.current_playlist_name = some nm)
    (hne : st.current_playlist ≠ [])
    (hlast : st.playlist_index + 1 = st.current_playlist.length)
    (hrep : st.repeatMode = .off) :
    next fs db st =
      (.status "end_of_playlist", { st with playlist_index := st.playlist_index + 1 }) ∧
    (next fs db st).2.is_playing = st.is_playing ∧
    (next fs db st).2.current_song = st.current_song ∧
    handle_song_end fs db st =
      { st with playlist_index := st.playlist_index + 1, is_playing := false,
                current_song := none, current_playlist_name := none } := by
  have hone : st.repeatMode ≠ RepeatMode.one := by rw [hrep]; intro h; cases h
  have hall : ¬ st.repeatMode = RepeatMode.all := by rw [hrep]; intro h; cases h
  have hlen : st.current_playlist.length ≤ st.playlist_index + 1 := le_of_eq hlast.symm
  have h1 : next fs db st =
      (.status "end_of_playlist", { st with playlist_index := st.playlist_index + 1 }) := by
    unfold next
    rw [hq]
    dsimp only
    rw [if_pos hne, if_pos hlen, if_neg hall]
  refine ⟨h1, by rw [h1], by rw [h1], ?_⟩
  unfold handle_song_end
  rw [if_neg hone, hq]
  dsimp only
  rw [if_pos hne, if_pos hlen, if_neg hall]
  rfl

theorem claim_C3_amended_witness :
    stC3.queue = [] ∧ stC3.current_playlist_name = some "P" ∧
    stC3.current_playlist ≠ [] ∧
    stC3.playlist_index + 1 = stC3.current_playlist.length ∧
    stC3.repeatMode = .off ∧
    (next fsAll [] stC3).2.is_playing = stC3.is_playing := by
  have h := claim_C3_amended fsAll [] stC3 "P" rfl rfl (by decide) rfl rfl
  exact ⟨rfl, rfl, by decide, rfl, rfl, h.2.1⟩

/-- State with a bound playlist at index 0 and a playing song, for the C4
counterexample and witness. -/
def stC4 : EngineState :=
  { baseState with
    playlists := [("Library", [songA, songB, songC]), ("P", [songA, songB])],
    current_playlist := [songA, songB], current_playlist_name := some "P",
    playlist_index := 0, current_song := some songA, is_playing := true,
    history := [songA] }

/-- C4 counterexample: `stop` leaves the bound playlist copy and the playlist
index in place, and a subsequent `next` resumes advancing through the
previously bound playlist (playing its second song), contradicting the claim
that `stop` clears the entire active-playlist binding. -/
theorem claim_C4_counterexample :
    (stop stC4).2.current_playlist = [songA, songB] ∧
    (stop stC4).2.playlist_index = 0 ∧
    (next fsAll [] (stop stC4).2).1 = .playing songB ∧
    (next fsAll [] (stop stC4).2).2.playlist_index = 1 := by
  decide

/-- C4 amended: `stop` clears the current song, the playing flag and the
active playlist name, and leaves queue and stored playlists untouched, but it
does not clear the bound playlist copy or the playlist index, so a subsequent
`next` with an empty queue still advances through the previously bound
playlist rather than reporting `no_next_song`. -/
theorem claim_C4_amended (st : EngineState) :
    stop st = (.status "stopped",
      { st with is_playing := false, current_song := none,
                current_playlist_name := none }) ∧
    (stop st).2.queue = st.queue ∧
    (stop st).2.playlists = st.playlists ∧
    (stop st).2.current_playlist = st.current_playlist ∧
    (stop st).2.playlist_index = st.playlist_index ∧
    (∀ fs db, st.queue = [] → st.current_playlist ≠ [] →
      (next fs db (stop st).2).1 ≠ .status "no_next_song") := by
  refine ⟨rfl, rfl, rfl, rfl, rfl, ?_⟩
  intro fs db hq hp
  exact next_queue_empty_playlist_bound fs db _ hq hp

theorem claim_C4_amended_witness :
    stC4.queue = [] ∧ stC4.current_playlist ≠ [] ∧
    (next fsAll [] (stop stC4).2).1 ≠ .status "no_next_song" := by
  exact ⟨rfl, by decide, (claim_C4_amended stC4).2.2.2.2.2 fsAll [] rfl (by decide)⟩

/-- State used by the volume and mute witnesses: unmuted at volume 75. -/
def stC7 : EngineState := baseState

/-- C7: starting unmuted, mute then `set_volume 50` then unmute leaves the
device output at 50 (the freshly stored volume, not the pre-mute level):
muting zeroes the device without touching the stored volume, setting the
volume while muted only updates the stored value, and unmuting pushes the
stored value to the device. -/
theorem claim_C7_mute_setvolume_unmute (st : EngineState) (h : st.is_muted = false) :
    ((toggle_mute st).2.player_volume = 0 ∧
     (toggle_mute st).2.volume = st.volume ∧
     (toggle_mute st).2.is_muted = true) ∧
    ((set_volume (toggle_mute st).2 50).2.player_volume = 0 ∧
     (set_volume (toggle_mute st).2 50).2.volume = 50) ∧
    ((toggle_mute (set_volume (toggle_mute st).2 50).2).2.is_muted = false ∧
     (toggle_mute (set_volume (toggle_mute st).2 50).2).2.player_volume = 50 ∧
     (toggle_mute (set_volume (toggle_mute st).2 50).2).2.volume = 50) := by
  simp [toggle_mute, set_volume, h]

theorem claim_C7_mute_setvolume_unmute_witness :
    stC7.is_muted = false ∧
    (toggle_mute (set_volume (toggle_mute stC7).2 50).2).2.player_volume = 50 := by
  exact ⟨rfl, (claim_C7_mute_setvolume_unmute stC7 rfl).2.2.2.1⟩

theorem set_volume_volume (st : EngineState) (level : Int) :
    (set_volume st level).2.volume = max 0 (min 100 level) := by
  unfold set_volume
  dsimp only
  split <;> rfl

/-- C8: `set_volume` stores exactly the clamp of its input to [0,100]:
negative inputs store 0, inputs above 100 store 100, in-range inputs store
themselves, and the stored volume is always within [0,100] afterwards. -/
theorem claim_C8_volume_clamp (st : EngineState) (v : Int) :
    (set_volume st v).2.volume = max 0 (min 100 v) ∧
    (v < 0 → (set_volume st v).2.volume = 0) ∧
    (100 < v → (set_volume st v).2.volume = 100) ∧
    (0 ≤ v → v ≤ 100 → (set_volume st v).2.volume = v) ∧
    0 ≤ (set_volume st v).2.volume ∧ (set_volume st v).2.volume ≤ 100 := by
  rw [set_volume_volume]
  refine ⟨rfl, ?_, ?_, ?_, ?_, ?_⟩ <;> omega

/-! Playlist persistence model: the `playlists` and `playlist_songs` tables of
the SQLite database, and the six playlist mutations of the engine.  Each
mutation takes a flag `dbOk`; `dbOk = false` means the SQLite statement block
raised, so the Python `except` branch returns an error dictionary.  Memory
mutations keep their source position relative to the `try` block: whatever the
source runs before the first database call still happens on failure. -/

/-- Row of the `playlists` table. -/
structure PlaylistRow where
  id : Nat
  name : String
  deriving DecidableEq, Repr

/-- Row of the `playlist_songs` table; `song_data` holds the JSON-serialized
song snapshot. -/
structure PlaylistSongRow where
  playlist_id : Nat
  song_data : Song
  position : Nat
  deriving DecidableEq, Repr

/-- The playlist side of the database.  `nextPlaylistId` models the
AUTOINCREMENT id counter read back through `cur.lastrowid`. -/
structure Storage where
  playlists : List PlaylistRow
  playlist_songs : List PlaylistSongRow
  nextPlaylistId : Nat
  deriving DecidableEq, Repr

/-- Lookup in the insertion-ordered dict `self.playlists`. -/
def lookupPl : List (String × List Song) → String → Option (List Song)
  | [], _ => none
  | e :: rest, name => if e.1 = name then some e.2 else lookupPl rest name

/-- In-place update of the dict entry for `name` (Python
`self.playlists[name] = ...` on an existing key). -/
def updatePl (m : List (String × List Song)) (name : String) (l : List Song) :
    List (String × List Song) :=
  m.map (fun e => if e.1 = name then (e.1, l) else e)

/-- Removal of a dict key (Python `del` / `dict.pop`). -/
def removeKey (m : List (String × List Song)) (name : String) :
    List (String × List Song) :=
  m.filter (fun e => e.1 != name)

/-- Enumerated membership rows inserted for song list `l` starting at
position `k` (the `enumerate` loops in the source). -/
def rowsFromList (pid : Nat) (k : Nat) : List Song → List PlaylistSongRow
  | [] => []
  | s :: rest => { playlist_id := pid, song_data := s, position := k } ::
      rowsFromList pid (k + 1) rest

/-- Song/position pairs of playlist `pid` in row order, the view a
`SELECT song_data, position ... WHERE playlist_id = ?` returns. -/
def rowsForL (rows : List PlaylistSongRow) (pid : Nat) : List (Song × Nat) :=
  (rows.filter (fun r => r.playlist_id == pid)).map (fun r => (r.song_data, r.position))

/-- Song/position pairs of playlist `pid` in the store. -/
def rowsFor (store : Storage) (pid : Nat) : List (Song × Nat) :=
  rowsForL store.playlist_songs pid

/-- Combined effect on the `playlist_songs` table of
`DELETE ... WHERE playlist_id = ? AND position = ?` followed by
`UPDATE ... SET position = position - 1 WHERE playlist_id = ? AND
position > ?` (the two statements of `remove_from_playlist`). -/
def shiftRows (pid i : Nat) (rows : List PlaylistSongRow) : List PlaylistSongRow :=
  (rows.filter (fun r => !(r.playlist_id == pid && r.position == i))).map
    (fun r => if r.playlist_id = pid ∧ i < r.position then
                { r with position := r.position - 1 } else r)

/-- Song/position pairs carrying positions `k`, `k+1`, ... for the songs of
`l`, the dense enumeration the storage invariant speaks about. -/
def withPositions (k : Nat) : List Song → List (Song × Nat)
  | [] => []
  | s :: rest => (s, k) :: withPositions (k + 1) rest

/-- Moving one element of a list: remove it at `i` and reinsert it at `j`
(Python `song = playlist.pop(i); playlist.insert(j, song)`). -/
def moveElem (l : List Song) (i j : Nat) : List Song :=
  (l.eraseIdx i).insertIdx j (l.getD i default)

/-- The engine method `create_playlist`: duplicate name is an error; the
playlist row and enumerated membership rows are written first, the in-memory
dict is only extended after the commit. -/
def create_playlist (dbOk : Bool) (store : Storage) (st : EngineState)
    (name : String) (songs : List Song) : OpResult × Storage × EngineState :=
  if (lookupPl st.playlists name).isSome then
    (.error ("Playlist " ++ name ++ " already exists"), store, st)
  else if dbOk then
    let pid := store.nextPlaylistId
    let store1 : Storage :=
      { playlists := store.playlists ++ [{ id := pid, name := name }],
        playlist_songs := store.playlist_songs ++ rowsFromList pid 0 songs,
        nextPlaylistId := pid + 1 }
    (.status "playlist_created", store1,
     { st with playlists := st.playlists ++ [(name, songs)] })
  else
    (.error "Failed to create playlist", store, st)

/-- The engine method `delete_playlist`.  SQLite runs with foreign keys off,
so only the `playlists` row goes away; memory and the active binding are only
touched after the commit. -/
def delete_playlist (dbOk : Bool) (store : Storage) (st : EngineState)
    (name : String) : OpResult × Storage × EngineState :=
  if name = "Library" then
    (.error "Cannot delete Library playlist", store, st)
  else if (lookupPl st.playlists name).isNone then
    (.error ("Playlist " ++ name ++ " not found"), store, st)
  else if dbOk then
    let store1 := { store with
      playlists := store.playlists.filter (fun r => r.name != name) }
    let st1 := { st with playlists := removeKey st.playlists name }
    let st2 :=
      if st1.current_playlist_name = some name then
        { st1 with current_playlist := [], current_playlist_name := none,
                   playlist_index := 0 }
      else st1
    (.status "playlist_deleted", store1, st2)
  else
    (.error "Failed to delete playlist", store, st)

/-- Dictionary built from a `music` row by the search queries of the engine. -/
def rowToSong (r : MusicRow) : Song :=
  { file_location := r.file_location, name := r.name, title := r.name,
    singer := r.singer, duration := r.duration, genre := r.genre }

/-- Whether the character-list `pat` starts the character-list text. -/
def charsStart : List Char → List Char → Bool
  | [], _ => true
  | _ :: _, [] => false
  | p :: ps, x :: xs => p == x && charsStart ps xs

/-- Whether the character-list `pat` occurs inside the text. -/
def charsOccur (pat : List Char) : List Char → Bool
  | [] => pat.isEmpty
  | x :: xs => charsStart pat (x :: xs) || charsOccur pat xs

/-- The SQL predicate `LOWER(name) LIKE LOWER(%query%)`. -/
def likeContains (hay pat : String) : Bool :=
  charsOccur (pat.data.map Char.toLower) (hay.data.map Char.toLower)

/-- The engine method `search_songs`: case-insensitive substring match over
the `music` table with a result limit. -/
def search_songs (db : List MusicRow) (query : String) (lim : Nat) : List Song :=
  ((db.filter (fun r => likeContains r.name query)).take lim).map rowToSong

/-- The private helper `_search_song`: first search hit, if any. -/
def searchSong (db : List MusicRow) (query : String) : Option Song :=
  (search_songs db query 1).head?

/-- The engine method `add_to_playlist`: resolve the song by search, falling
back to a raw existing file path; append at position `len(playlist)` in
storage, then in memory, then in the bound copy when the playlist is
active. -/
def add_to_playlist (dbOk : Bool) (fs : List String) (db : List MusicRow)
    (store : Storage) (st : EngineState) (playlist_name song_name : String) :
    OpResult × Storage × EngineState :=
  if (lookupPl st.playlists playlist_name).isNone then
    (.error ("Playlist " ++ playlist_name ++ " not found"), store, st)
  else
    let found : Option Song :=
      match searchSong db song_name with
      | some s => some s
      | none =>
        if fs.contains song_name then
          some { file_location := song_name, name := stemOf (basename song_name),
                 title := stemOf (basename song_name) }
        else none
    match found with
    | none => (.error ("Song not found: " ++ song_name), store, st)
    | some song_data =>
      if dbOk then
        let cur := (lookupPl st.playlists playlist_name).getD []
        let store1 :=
          match store.playlists.find? (fun r => r.name == playlist_name) with
          | some row =>
            { store with playlist_songs := store.playlist_songs ++
                [{ playlist_id := row.id, song_data := song_data,
                   position := cur.length }] }
          | none => store
        let st1 := { st with
          playlists := updatePl st.playlists playlist_name (cur ++ [song_data]) }
        let st2 :=
          if st1.current_playlist_name = some playlist_name then
            { st1 with current_playlist := st1.current_playlist ++ [song_data] }
          else st1
        (.status "song_added_to_playlist", store1, st2)
      else
        (.error "Failed to add song to playlist", store, st)

/-- The engine method `remove_from_playlist`: after the checks, the storage
rows are deleted and later positions shifted down, then the memory entry is
popped, then the bound copy is popped and the active index decremented when
the removed position was before it.  A bound copy shorter than the index makes
the Python `pop` raise after the earlier updates, which surfaces as an error
result. -/
def remove_from_playlist (dbOk : Bool) (store : Storage) (st : EngineState)
    (playlist_name : String) (index : Int) : OpResult × Storage × EngineState :=
  if (lookupPl st.playlists playlist_name).isNone then
    (.error ("Playlist " ++ playlist_name ++ " not found"), store, st)
  else if playlist_name = "Library" then
    (.error "Cannot modify Library playlist", store, st)
  else
    let playlist := (lookupPl st.playlists playlist_name).getD []
    if ¬ (0 ≤ index ∧ index < (playlist.length : Int)) then
      (.error "Invalid song index", store, st)
    else if dbOk then
      let i := index.toNat
      let store1 :=
        match store.playlists.find? (fun r => r.name == playlist_name) with
        | some row =>
          { store with playlist_songs := shiftRows row.id i store.playlist_songs }
        | none => store
      let st1 := { st with
        playlists := updatePl st.playlists playlist_name (playlist.eraseIdx i) }
      if st1.current_playlist_name = some playlist_name then
        if i < st1.current_playlist.length then
          (.status "song_removed_from_playlist", store1,
           { st1 with
             current_playlist := st1.current_playlist.eraseIdx i,
             playlist_index := if i < st1.playlist_index then st1.playlist_index - 1
                               else st1.playlist_index })
        else
          (.error "Failed to remove song from playlist", store1, st1)
      else
        (.status "song_removed_from_playlist", store1, st1)
    else
      (.error "Failed to remove song from playlist", store, st)

/-- The engine method `reorder_playlist`: after the checks the in-memory list
is moved FIRST (inside the `try`, before any statement), then the membership
table for the playlist is cleared and rewritten with fresh sequential
positions, then the bound copy is moved and the active index adjusted.  On a
storage failure the memory move has already happened and is not rolled
back. -/
def reorder_playlist (dbOk : Bool) (store : Storage) (st : EngineState)
    (playlist_name : String) (from_index to_index : Int) :
    OpResult × Storage × EngineState :=
  if (lookupPl st.playlists playlist_name).isNone then
    (.error ("Playlist " ++ playlist_name ++ " not found"), store, st)
  else if playlist_name = "Library" then
    (.error "Cannot reorder Library playlist", store, st)
  else
    let playlist := (lookupPl st.playlists playlist_name).getD []
    if ¬ (0 ≤ from_index ∧ from_index < (playlist.length : Int) ∧
          0 ≤ to_index ∧ to_index < (playlist.length : Int)) then
      (.error "Invalid indices", store, st)
    else
      let i := from_index.toNat
      let j := to_index.toNat
      let moved := moveElem playlist i j
      let st1 := { st with playlists := updatePl st.playlists playlist_name moved }
      if dbOk then
        let store1 :=
          match store.playlists.find? (fun r => r.name == playlist_name) with
          | some row =>
            let pid := row.id
            { store with playlist_songs :=
                (store.playlist_songs.filter (fun r => !(r.playlist_id == pid))) ++
                rowsFromList pid 0 moved }
          | none => store
        if st1.current_playlist_name = some playlist_name then
          if i < st1.current_playlist.length then
            (.status "playlist_reordered", store1,
             { st1 with
               current_playlist := moveElem st1.current_playlist i j,
               playlist_index :=
                 if (st1.playlist_index : Int) = from_index then j
                 else if from_index < (st1.playlist_index : Int) ∧
                         (st1.playlist_index : Int) ≤ to_index then
                   st1.playlist_index - 1
                 else if to_index ≤ (st1.playlist_index : Int) ∧
                         (st1.playlist_index : Int) < from_index then
                   st1.playlist_index + 1
                 else st1.playlist_index })
          else
            (.error "Failed to reorder playlist", store1, st1)
        else
          (.status "playlist_reordered", store1, st1)
      else
        (.error "Failed to reorder playlist", store, st1)

/-- The engine method `rename_playlist`: storage row renamed first, then the
dict key is popped and re-added, then the active binding name follows. -/
def rename_playlist (dbOk : Bool) (store : Storage) (st : EngineState)
    (old_name new_name : String) : OpResult × Storage × EngineState :=
  if old_name = "Library" then
    (.error "Cannot rename Library playlist", store, st)
  else if (lookupPl st.playlists old_name).isNone then
    (.error ("Playlist " ++ old_name ++ " not found"), store, st)
  else if (lookupPl st.playlists new_name).isSome then
    (.error ("Playlist " ++ new_name ++ " already exists"), store, st)
  else if dbOk then
    let renamedRows := store.playlists.map
      (fun r => if r.name = old_name then { r with name := new_name } else r)
    let store1 := { store with playlists := renamedRows }
    let songs := (lookupPl st.playlists old_name).getD []
    let st1 := { st with
      playlists := removeKey st.playlists old_name ++ [(new_name, songs)] }
    let st2 :=
      if st1.current_playlist_name = some old_name then
        { st1 with current_playlist_name := some new_name }
      else st1
    (.status "playlist_renamed", store1, st2)
  else
    (.error "Failed to rename playlist", store, st)

theorem claim_C8_volume_clamp_witness :
    (-7 : Int) < 0 ∧ (set_volume stC7 (-7)).2.volume = 0 ∧
    (150 : Int) > 100 ∧ (set_volume stC7 150).2.volume = 100 ∧
    (set_volume stC7 42).2.volume = 42 := by
  refine ⟨by norm_num, (claim_C8_volume_clamp stC7 (-7)).2.1 (by norm_num),
    by norm_num, (claim_C8_volume_clamp stC7 150).2.2.1 (by norm_num),
    (claim_C8_volume_clamp stC7 42).2.2.2.1 (by norm_num) (by norm_num)⟩

/-! Behaviour of the playlist mutations when the storage statements fail. -/

theorem create_playlist_db_fail (store : Storage) (st : EngineState)
    (name : String) (songs : List Song) :
    (create_playlist false store st name songs).1.isError = true ∧
    (create_playlist false store st name songs).2.1 = store ∧
    (create_playlist false store st name songs).2.2 = st := by
  unfold create_playlist
  split
  · exact ⟨rfl, rfl, rfl⟩
  · exact ⟨rfl, rfl, rfl⟩

theorem delete_playlist_db_fail (store : Storage) (st : EngineState) (name : String) :
    (delete_playlist false store st name).1.isError = true ∧
    (delete_playlist false store st name).2.1 = store ∧
    (delete_playlist false store st name).2.2 = st := by
  unfold delete_playlist
  split
  · exact ⟨rfl, rfl, rfl⟩
  · split
    · exact ⟨rfl, rfl, rfl⟩
    · exact ⟨rfl, rfl, rfl⟩

theorem add_to_playlist_db_fail (fs : List String) (db : List MusicRow)
    (store : Storage) (st : EngineState) (pn sn : String) :
    (add_to_playlist false fs db store st pn sn).1.isError = true ∧
    (add_to_playlist false fs db store st pn sn).2.1 = store ∧
    (add_to_playlist false fs db store st pn sn).2.2 = st := by
  unfold add_to_playlist
  repeat' split
  all_goals first
  | rfl
  | exact ⟨rfl, rfl, rfl⟩
  | simp_all [OpResult.isError]

theorem remove_from_playlist_db_fail (store : Storage) (st : EngineState)
    (pn : String) (index : Int) :
    (remove_from_playlist false store st pn index).1.isError = true ∧
    (remove_from_playlist false store st pn index).2.1 = store ∧
    (remove_from_playlist false store st pn index).2.2 = st := by
  unfold remove_from_playlist
  repeat' split
  all_goals first
  | rfl
  | exact ⟨rfl, rfl, rfl⟩
  | simp_all [OpResult.isError]
  all_goals refine ⟨?_, ?_, ?_⟩ <;> split_ifs <;> rfl

theorem rename_playlist_db_fail (store : Storage) (st : EngineState)
    (o n : String) :
    (rename_playlist false store st o n).1.isError = true ∧
    (rename_playlist false store st o n).2.1 = store ∧
    (rename_playlist false store st o n).2.2 = st := by
  unfold rename_playlist
  repeat' split
  all_goals first
  | rfl
  | exact ⟨rfl, rfl, rfl⟩
  | simp_all [OpResult.isError]

theorem reorder_playlist_db_fail (store : Storage) (st : EngineState)
    (name : String) (l : List Song) (fi ti : Int)
    (hl : lookupPl st.playlists name = some l)
    (hlib : ¬ name = "Library")
    (h0 : 0 ≤ fi) (h1 : fi < (l.length : Int))
    (h2 : 0 ≤ ti) (h3 : ti < (l.length : Int)) :
    (reorder_playlist false store st name fi ti).1.isError = true ∧
    (reorder_playlist false store st name fi ti).2.1 = store ∧
    (reorder_playlist false store st name fi ti).2.2 =
      { st with playlists := updatePl st.playlists name (moveElem l fi.toNat ti.toNat) } := by
  have hnn : ¬ (lookupPl st.playlists name).isNone = true := by
    rw [hl]; simp
  unfold reorder_playlist
  rw [if_neg hnn, if_neg hlib, hl]
  rw [if_neg (not_not_intro ⟨h0, h1, h2, h3⟩)]
  exact ⟨rfl, rfl, rfl⟩

/-- The playlist database matching `stC2`: the single user playlist `P` with
its two membership rows. -/
def store0 : Storage :=
  { playlists := [{ id := 1, name := "P" }],
    playlist_songs := rowsFromList 1 0 [songA, songB],
    nextPlaylistId := 2 }

/-- Engine state with the Library and one user playlist `P`. -/
def stC2 : EngineState :=
  { baseState with
    playlists := [("Library", [songA, songB, songC]), ("P", [songA, songB])] }

/-- C2 counterexample: a storage failure during `reorder_playlist` returns an
error, yet the in-memory playlist map has already been reordered, so the
operation does not leave the in-memory state unchanged as the claim says. -/
theorem claim_C2_counterexample :
    (reorder_playlist false store0 stC2 "P" 0 1).1.isError = true ∧
    lookupPl (reorder_playlist false store0 stC2 "P" 0 1).2.2.playlists "P" =
      some [songB, songA] ∧
    lookupPl stC2.playlists "P" = some [songA, songB] := by
  decide

/-- C2 amended: when the storage statement fails, `create_playlist`,
`delete_playlist`, `add_to_playlist`, `remove_from_playlist` and
`rename_playlist` return an error and leave the whole in-memory state (and the
store) unchanged; `reorder_playlist` also returns an error, but the in-memory
playlist map has already been reordered (the active binding, its index and the
store are unchanged). -/
theorem claim_C2_amended (fs : List String) (db : List MusicRow)
    (store : Storage) (st : EngineState) :
    (∀ name songs, (create_playlist false store st name songs).1.isError = true ∧
      (create_playlist false store st name songs).2.1 = store ∧
      (create_playlist false store st name songs).2.2 = st) ∧
    (∀ name, (delete_playlist false store st name).1.isError = true ∧
      (delete_playlist false store st name).2.1 = store ∧
      (delete_playlist false store st name).2.2 = st) ∧
    (∀ pn sn, (add_to_playlist false fs db store st pn sn).1.isError = true ∧
      (add_to_playlist false fs db store st pn sn).2.1 = store ∧
      (add_to_playlist false fs db store st pn sn).2.2 = st) ∧
    (∀ pn k, (remove_from_playlist false store st pn k).1.isError = true ∧
      (remove_from_playlist false store st pn k).2.1 = store ∧
      (remove_from_playlist false store st pn k).2.2 = st) ∧
    (∀ o n, (rename_playlist false store st o n).1.isError = true ∧
      (rename_playlist false store st o n).2.1 = store ∧
      (rename_playlist false store st o n).2.2 = st) ∧
    (∀ name l fi ti, lookupPl st.playlists name = some l → ¬ name = "Library" →
      0 ≤ fi → fi < (l.length : Int) → 0 ≤ ti → ti < (l.length : Int) →
      (reorder_playlist false store st name fi ti).1.isError = true ∧
      (reorder_playlist false store st name fi ti).2.1 = store ∧
      (reorder_playlist false store st name fi ti).2.2 =
        { st with playlists := updatePl st.playlists name (moveElem l fi.toNat ti.toNat) } ∧
      (reorder_playlist false store st name fi ti).2.2.current_playlist =
        st.current_playlist ∧
      (reorder_playlist false store st name fi ti).2.2.current_playlist_name =
        st.current_playlist_name ∧
      (reorder_playlist false store st name fi ti).2.2.playlist_index =
        st.playlist_index) := by
  refine ⟨create_playlist_db_fail store st,
    delete_playlist_db_fail store st,
    add_to_playlist_db_fail fs db store st,
    remove_from_playlist_db_fail store st,
    rename_playlist_db_fail store st, ?_⟩
  intro name l fi ti hl hlib h0 h1 h2 h3
  have h := reorder_playlist_db_fail store st name l fi ti hl hlib h0 h1 h2 h3
  exact ⟨h.1, h.2.1, h.2.2, by rw [h.2.2], by rw [h.2.2], by rw [h.2.2]⟩

theorem claim_C2_amended_witness :
    lookupPl stC2.playlists "P" = some [songA, songB] ∧
    (create_playlist false store0 stC2 "Q" []).2.2 = stC2 ∧
    (reorder_playlist false store0 stC2 "P" 0 1).2.2 =
      { stC2 with playlists := updatePl stC2.playlists "P" [songB, songA] } := by
  have h := claim_C2_amended fsAll [] store0 stC2
  have h6 := h.2.2.2.2.2 "P" [songA, songB] 0 1 (by decide) (by decide)
    (by norm_num) (by norm_num) (by norm_num) (by norm_num)
  exact ⟨by decide, (h.1 "Q" []).2.2, h6.2.2.1⟩

/-! Facts about the song/position view of one playlist under the SQL
statements of `remove_from_playlist`. -/

/-- Effect of `DELETE ... WHERE position = i` followed by
`UPDATE ... SET position = position - 1 WHERE position > i` on the
song/position view of one playlist. -/
def removeAtPos (i : Nat) : List (Song × Nat) → List (Song × Nat)
  | [] => []
  | r :: rest =>
    if r.2 = i then removeAtPos i rest
    else (if i < r.2 then (r.1, r.2 - 1) else r) :: removeAtPos i rest

theorem removeAtPos_cons (i : Nat) (r : Song × Nat) (rest : List (Song × Nat)) :
    removeAtPos i (r :: rest) =
      if r.2 = i then removeAtPos i rest
      else (if i < r.2 then (r.1, r.2 - 1) else r) :: removeAtPos i rest := rfl

theorem rowsForL_cons (r : PlaylistSongRow) (rest : List PlaylistSongRow) (pid : Nat) :
    rowsForL (r :: rest) pid =
      if r.playlist_id = pid then (r.song_data, r.position) :: rowsForL rest pid
      else rowsForL rest pid := by
  by_cases hp : r.playlist_id = pid <;> simp [rowsForL, List.filter_cons, hp]

theorem shiftRows_cons (pid i : Nat) (r : PlaylistSongRow) (rest : List PlaylistSongRow) :
    shiftRows pid i (r :: rest) =
      if r.playlist_id = pid ∧ r.position = i then shiftRows pid i rest
      else (if r.playlist_id = pid ∧ i < r.position then
              { r with position := r.position - 1 } else r) :: shiftRows pid i rest := by
  by_cases hp : r.playlist_id = pid
  · by_cases hq : r.position = i
    · simp [shiftRows, List.filter_cons, hp, hq]
    · simp [shiftRows, List.filter_cons, hp, hq]
  · simp [shiftRows, List.filter_cons, hp]

theorem rowsForL_shiftRows (rows : List PlaylistSongRow) (pid i : Nat) :
    rowsForL (shiftRows pid i rows) pid = removeAtPos i (rowsForL rows pid) := by
  induction rows with
  | nil => rfl
  | cons r rest ih =>
    rw [shiftRows_cons, rowsForL_cons]
    by_cases hp : r.playlist_id = pid
    · by_cases hq : r.position = i
      · rw [if_pos ⟨hp, hq⟩, if_pos hp, removeAtPos_cons, if_pos hq, ih]
      · by_cases hlt : i < r.position
        · rw [if_neg (by tauto), if_pos ⟨hp, hlt⟩, rowsForL_cons, if_pos hp,
            if_pos hp, removeAtPos_cons, if_neg hq, if_pos hlt, ih]
        · rw [if_neg (by tauto), if_neg (by tauto), rowsForL_cons, if_pos hp,
            if_pos hp, removeAtPos_cons, if_neg hq, if_neg hlt, ih]
    · rw [if_neg (by tauto), if_neg (by tauto), rowsForL_cons, if_neg hp, if_neg hp, ih]

theorem removeAtPos_withPositions_of_lt (l : List Song) (k i : Nat) (h : i < k) :
    removeAtPos i (withPositions k l) = withPositions (k - 1) l := by
  induction l generalizing k with
  | nil => rfl
  | cons s rest ih =>
    simp only [withPositions, removeAtPos, if_neg (by omega : ¬ k = i),
      if_pos h, ih (k + 1) (by omega)]
    rw [show k + 1 - 1 = k - 1 + 1 by omega]

theorem removeAtPos_withPositions (l : List Song) (k i : Nat) (hk : k ≤ i)
    (hi : i < k + l.length) :
    removeAtPos i (withPositions k l) = withPositions k (l.eraseIdx (i - k)) := by
  induction l generalizing k with
  | nil => simp at hi; omega
  | cons s rest ih =>
    by_cases hik : i = k
    · subst hik
      simp only [withPositions, removeAtPos, if_pos rfl]
      rw [removeAtPos_withPositions_of_lt rest (i + 1) i (by omega)]
      simp [List.eraseIdx]
    · have hklt : k < i := lt_of_le_of_ne hk (fun h => hik h.symm)
      simp only [withPositions, removeAtPos, if_neg (by omega : ¬ k = i),
        if_neg (by omega : ¬ i < k)]
      rw [ih (k + 1) (by omega) (by simp at hi ⊢; omega)]
      have h2 : (s :: rest).eraseIdx (i - k) = s :: rest.eraseIdx (i - (k + 1)) := by
        rw [show i - k = (i - (k + 1)) + 1 by omega, List.eraseIdx_cons_succ]
      rw [h2]
      rfl

theorem withPositions_map_snd (l : List Song) (k : Nat) :
    (withPositions k l).map Prod.snd = List.range' k l.length := by
  induction l generalizing k with
  | nil => rfl
  | cons s rest ih => simp [withPositions, List.range'_succ, ih]

theorem lookupPl_updatePl (m : List (String × List Song)) (name : String)
    (l' : List Song) (h : (lookupPl m name).isSome = true) :
    lookupPl (updatePl m name l') name = some l' := by
  induction m with
  | nil => simp [lookupPl] at h
  | cons e rest ih =>
    by_cases he : e.1 = name
    · simp [lookupPl, updatePl, he]
    · simp only [lookupPl, updatePl, List.map_cons, if_neg he] at h ⊢
      exact ih h

theorem remove_from_playlist_ok (store : Storage) (st : EngineState)
    (name : String) (l : List Song) (pid : Nat) (i : Nat)
    (hl : lookupPl st.playlists name = some l)
    (hlib : ¬ name = "Library")
    (hi : i < l.length)
    (hrow : store.playlists.find? (fun r => r.name == name) =
      some { id := pid, name := name }) :
    remove_from_playlist true store st name (i : Int) =
      (let store1 : Storage :=
        { store with playlist_songs := shiftRows pid i store.playlist_songs }
       let st1 := { st with playlists := updatePl st.playlists name (l.eraseIdx i) }
       if st1.current_playlist_name = some name then
         if i < st1.current_playlist.length then
           (.status "song_removed_from_playlist", store1,
            { st1 with
              current_playlist := st1.current_playlist.eraseIdx i,
              playlist_index := (if i < st1.playlist_index then
                st1.playlist_index - 1 else st1.playlist_index) })
         else (.error "Failed to remove song from playlist", store1, st1)
       else (.status "song_removed_from_playlist", store1, st1)) := by
  have h0 : (0 : Int) ≤ (i : Int) := Int.natCast_nonneg i
  have hi2 : (i : Int) < (l.length : Int) := by exact_mod_cast hi
  unfold remove_from_playlist
  rw [hl]
  simp only [Option.getD_some]
  rw [if_neg (by simp), if_neg hlib, if_neg (not_not_intro ⟨h0, hi2⟩),
    if_pos (by trivial), hrow]
  rfl

/-- C5: removing index `i` from an existing non-Library playlist pops exactly
that entry in memory, leaves the stored membership rows as the dense 0-based
enumeration of the shortened list (every later position shifted down by one,
no gaps), decrements the active index exactly when the removed position was
strictly before it, and fails with the not-found, Library-protected and
invalid-index errors in the stated cases. -/
theorem claim_C5_remove_song (store : Storage) (st : EngineState)
    (name : String) (l : List Song) (pid : Nat) (i : Nat)
    (hl : lookupPl st.playlists name = some l)
    (hlib : ¬ name = "Library")
    (hi : i < l.length)
    (hrow : store.playlists.find? (fun r => r.name == name) =
      some { id := pid, name := name })
    (hsync : rowsFor store pid = withPositions 0 l)
    (hcp : st.current_playlist_name = some name → i < st.current_playlist.length) :
    (remove_from_playlist true store st name (i : Int)).1 =
      .status "song_removed_from_playlist" ∧
    lookupPl (remove_from_playlist true store st name (i : Int)).2.2.playlists name =
      some (l.eraseIdx i) ∧
    rowsFor (remove_from_playlist true store st name (i : Int)).2.1 pid =
      withPositions 0 (l.eraseIdx i) ∧
    (rowsFor (remove_from_playlist true store st name (i : Int)).2.1 pid).map Prod.snd =
      List.range (l.length - 1) ∧
    (st.current_playlist_name = some name →
      (remove_from_playlist true store st name (i : Int)).2.2.playlist_index =
        (if i < st.playlist_index then st.playlist_index - 1 else st.playlist_index) ∧
      (remove_from_playlist true store st name (i : Int)).2.2.current_playlist =
        st.current_playlist.eraseIdx i) ∧
    (¬ st.current_playlist_name = some name →
      (remove_from_playlist true store st name (i : Int)).2.2.playlist_index =
        st.playlist_index ∧
      (remove_from_playlist true store st name (i : Int)).2.2.current_playlist =
        st.current_playlist) ∧
    (∀ nm (k : Int), lookupPl st.playlists nm = none →
      (remove_from_playlist true store st nm k).1 =
        .error ("Playlist " ++ nm ++ " not found")) ∧
    ((lookupPl st.playlists "Library").isSome = true →
      ∀ k : Int, (remove_from_playlist true store st "Library" k).1 =
        .error "Cannot modify Library playlist") ∧
    (∀ k : Int, ¬ (0 ≤ k ∧ k < (l.length : Int)) →
      (remove_from_playlist true store st name k).1 = .error "Invalid song index") := by
  have hok := remove_from_playlist_ok store st name l pid i hl hlib hi hrow
  have hrows : rowsForL (shiftRows pid i store.playlist_songs) pid =
      withPositions 0 (l.eraseIdx i) := by
    rw [rowsForL_shiftRows]
    have := removeAtPos_withPositions l 0 i (Nat.zero_le i) (by omega)
    rw [show rowsForL store.playlist_songs pid = rowsFor store pid from rfl, hsync]
    simpa using this
  have hlen : (l.eraseIdx i).length = l.length - 1 := by
    have := List.length_eraseIdx_add_one hi
    omega
  have hsnd : (withPositions 0 (l.eraseIdx i)).map Prod.snd = List.range (l.length - 1) := by
    rw [withPositions_map_snd, hlen, List.range_eq_range']
  have hmem : lookupPl (updatePl st.playlists name (l.eraseIdx i)) name =
      some (l.eraseIdx i) :=
    lookupPl_updatePl st.playlists name (l.eraseIdx i) (by rw [hl]; rfl)
  refine ⟨?_, ?_, ?_, ?_, ?_, ?_, ?_, ?_, ?_⟩
  · rw [hok]
    by_cases hb : st.current_playlist_name = some name
    · have hcl := hcp hb
      rw [if_pos hb, if_pos hcl]
    · rw [if_neg hb]
  · rw [hok]
    by_cases hb : st.current_playlist_name = some name
    · have hcl := hcp hb
      rw [if_pos hb, if_pos hcl]
      exact hmem
    · rw [if_neg hb]
      exact hmem
  · rw [hok]
    by_cases hb : st.current_playlist_name = some name
    · have hcl := hcp hb
      rw [if_pos hb, if_pos hcl]
      exact hrows
    · rw [if_neg hb]
      exact hrows
  · rw [hok]
    by_cases hb : st.current_playlist_name = some name
    · have hcl := hcp hb
      rw [if_pos hb, if_pos hcl]
      show (rowsForL (shiftRows pid i store.playlist_songs) pid).map Prod.snd =
        List.range (l.length - 1)
      rw [hrows, hsnd]
    · rw [if_neg hb]
      show (rowsForL (shiftRows pid i store.playlist_songs) pid).map Prod.snd =
        List.range (l.length - 1)
      rw [hrows, hsnd]
  · intro hb
    have hcl := hcp hb
    rw [hok]
    rw [if_pos hb, if_pos hcl]
    exact ⟨rfl, rfl⟩
  · intro hb
    rw [hok]
    rw [if_neg hb]
    exact ⟨rfl, rfl⟩
  · intro nm k hnone
    unfold remove_from_playlist
    rw [hnone]
    rfl
  · intro hsome k
    obtain ⟨x, hx⟩ := Option.isSome_iff_exists.mp hsome
    unfold remove_from_playlist
    rw [hx]
    rfl
  · intro k hk
    unfold remove_from_playlist
    rw [hl]
    simp only [Option.getD_some]
    rw [if_neg (by simp), if_neg hlib, if_pos hk]

theorem claim_C5_remove_song_witness :
    lookupPl stC2.playlists "P" = some [songA, songB] ∧
    (remove_from_playlist true store0 stC2 "P" 0).1 =
      .status "song_removed_from_playlist" ∧
    lookupPl (remove_from_playlist true store0 stC2 "P" 0).2.2.playlists "P" =
      some [songB] ∧
    rowsFor (remove_from_playlist true store0 stC2 "P" 0).2.1 1 =
      withPositions 0 [songB] := by
  have h := claim_C5_remove_song store0 stC2 "P" [songA, songB] 1 0
    (by decide) (by decide) (by decide) (by decide) (by decide) (by decide)
  exact ⟨by decide, h.1, h.2.1, h.2.2.1⟩

/-! List facts for the reorder operation. -/

theorem insertIdx_getD_eraseIdx (l : List Song) (i : Nat) (d : Song)
    (hi : i < l.length) :
    (l.eraseIdx i).insertIdx i (l.getD i d) = l := by
  induction l generalizing i with
  | nil => simp at hi
  | cons s rest ih =>
    cases i with
    | zero => rfl
    | succ n =>
      have hn : n < rest.length := by simpa using hi
      simp only [List.eraseIdx_cons_succ, List.insertIdx_succ_cons, List.getD_cons_succ]
      rw [ih n hn]

theorem insertIdx_perm (a : Song) :
    ∀ (n : Nat) (l : List Song), n ≤ l.length → (l.insertIdx n a).Perm (a :: l)
  | 0, l, _ => by simp
  | n + 1, [], h => by simp at h
  | n + 1, x :: xs, h => by
    simp only [List.insertIdx_succ_cons]
    exact ((insertIdx_perm a n xs (Nat.le_of_succ_le_succ h)).cons x).trans
      (List.Perm.swap a x xs)

theorem getD_insertIdx_self (m : List Song) (a d : Song) (n : Nat)
    (h : n ≤ m.length) : (m.insertIdx n a).getD n d = a := by
  have hlt : n < (m.insertIdx n a).length := by
    rw [List.length_insertIdx n m h]
    omega
  rw [List.getD_eq_getElem _ _ hlt]
  exact List.getElem_insertIdx_self m a n h

theorem length_moveElem (l : List Song) (i j : Nat) (hi : i < l.length)
    (hj : j < l.length) : (moveElem l i j).length = l.length := by
  unfold moveElem
  have he : (l.eraseIdx i).length = l.length - 1 := by
    have := List.length_eraseIdx_add_one hi
    omega
  rw [List.length_insertIdx j (l.eraseIdx i) (by omega)]
  omega

theorem moveElem_perm (l : List Song) (i j : Nat) (hi : i < l.length)
    (hj : j < l.length) : (moveElem l i j).Perm l := by
  have he : (l.eraseIdx i).length = l.length - 1 := by
    have := List.length_eraseIdx_add_one hi
    omega
  have h1 : (moveElem l i j).Perm (l.getD i default :: l.eraseIdx i) :=
    insertIdx_perm (l.getD i default) j (l.eraseIdx i) (by omega)
  have h2 : l.Perm (l.getD i default :: l.eraseIdx i) := by
    conv_lhs => rw [← insertIdx_getD_eraseIdx l i default hi]
    exact insertIdx_perm (l.getD i default) i (l.eraseIdx i) (by omega)
  exact h1.trans h2.symm

theorem moveElem_moveElem (l : List Song) (i j : Nat) (hi : i < l.length)
    (hj : j < l.length) : moveElem (moveElem l i j) j i = l := by
  have he : (l.eraseIdx i).length = l.length - 1 := by
    have := List.length_eraseIdx_add_one hi
    omega
  have hj2 : j ≤ (l.eraseIdx i).length := by omega
  show ((moveElem l i j).eraseIdx j).insertIdx i ((moveElem l i j).getD j default) = l
  unfold moveElem
  rw [List.eraseIdx_insertIdx j (l.eraseIdx i),
    getD_insertIdx_self (l.eraseIdx i) (l.getD i default) default j hj2,
    insertIdx_getD_eraseIdx l i default hi]

theorem rowsForL_append (xs ys : List PlaylistSongRow) (pid : Nat) :
    rowsForL (xs ++ ys) pid = rowsForL xs pid ++ rowsForL ys pid := by
  simp [rowsForL, List.filter_append]

theorem rowsForL_filter_ne (rows : List PlaylistSongRow) (pid : Nat) :
    rowsForL (rows.filter (fun r => !(r.playlist_id == pid))) pid = [] := by
  induction rows with
  | nil => rfl
  | cons r rest ih =>
    by_cases hp : r.playlist_id = pid
    · simpa [List.filter_cons, hp] using ih
    · simpa [rowsForL, List.filter_cons, hp] using ih

theorem rowsForL_rowsFromList (pid : Nat) (l : List Song) (k : Nat) :
    rowsForL (rowsFromList pid k l) pid = withPositions k l := by
  induction l generalizing k with
  | nil => rfl
  | cons s rest ih =>
    rw [rowsFromList, rowsForL_cons, if_pos rfl, ih (k + 1)]
    rfl

theorem natMoveIdx_eq (p i j : Nat) :
    (if (p : Int) = (i : Int) then j
     else if (i : Int) < (p : Int) ∧ (p : Int) ≤ (j : Int) then p - 1
     else if (j : Int) ≤ (p : Int) ∧ (p : Int) < (i : Int) then p + 1
     else p) =
    (if p = i then j
     else if i < p ∧ p ≤ j then p - 1
     else if j ≤ p ∧ p < i then p + 1
     else p) := by
  by_cases h1 : p = i
  · rw [if_pos (by omega : ((p : Int) = (i : Int))), if_pos h1]
  · rw [if_neg (by omega : ¬ ((p : Int) = (i : Int))), if_neg h1]
    by_cases h2 : i < p ∧ p ≤ j
    · rw [if_pos (by omega : ((i : Int) < (p : Int) ∧ (p : Int) ≤ (j : Int))), if_pos h2]
    · rw [if_neg (by omega : ¬ ((i : Int) < (p : Int) ∧ (p : Int) ≤ (j : Int))), if_neg h2]
      by_cases h3 : j ≤ p ∧ p < i
      · rw [if_pos (by omega : ((j : Int) ≤ (p : Int) ∧ (p : Int) < (i : Int))), if_pos h3]
      · rw [if_neg (by omega : ¬ ((j : Int) ≤ (p : Int) ∧ (p : Int) < (i : Int))), if_neg h3]

theorem reorder_playlist_ok (store : Storage) (st : EngineState)
    (name : String) (l : List Song) (pid : Nat) (i j : Nat)
    (hl : lookupPl st.playlists name = some l)
    (hlib : ¬ name = "Library")
    (hi : i < l.length) (hj : j < l.length)
    (hrow : store.playlists.find? (fun r => r.name == name) =
      some { id := pid, name := name }) :
    reorder_playlist true store st name (i : Int) (j : Int) =
      (let moved := moveElem l i j
       let st1 := { st with playlists := updatePl st.playlists name moved }
       let newRows := (store.playlist_songs.filter
         (fun r => !(r.playlist_id == pid))) ++ rowsFromList pid 0 moved
       let store1 : Storage := { store with playlist_songs := newRows }
       if st1.current_playlist_name = some name then
         if i < st1.current_playlist.length then
           (.status "playlist_reordered", store1,
            { st1 with
              current_playlist := moveElem st1.current_playlist i j,
              playlist_index := (if (st1.playlist_index : Int) = (i : Int) then j
                else if (i : Int) < (st1.playlist_index : Int) ∧
                    (st1.playlist_index : Int) ≤ (j : Int) then st1.playlist_index - 1
                else if (j : Int) ≤ (st1.playlist_index : Int) ∧
                    (st1.playlist_index : Int) < (i : Int) then st1.playlist_index + 1
                else st1.playlist_index) })
         else (.error "Failed to reorder playlist", store1, st1)
       else (.status "playlist_reordered", store1, st1)) := by
  have h0 : (0 : Int) ≤ (i : Int) := Int.natCast_nonneg i
  have h0j : (0 : Int) ≤ (j : Int) := Int.natCast_nonneg j
  have hi2 : (i : Int) < (l.length : Int) := by exact_mod_cast hi
  have hj2 : (j : Int) < (l.length : Int) := by exact_mod_cast hj
  unfold reorder_playlist
  rw [hl]
  simp only [Option.getD_some]
  rw [if_neg (by simp), if_neg hlib, if_neg (not_not_intro ⟨h0, hi2, h0j, hj2⟩),
    if_pos (by trivial), hrow]
  rfl

/-- C6: reordering an existing non-Library playlist from `i` to `j` succeeds,
moves exactly one element (the result is `moveElem l i j`), keeps the multiset
of songs (it is a permutation of the original list), is undone by the inverse
move `reorder(name, j, i)`, rewrites the stored membership rows as the dense
enumeration of the moved list, and adjusts the active index by the standard
move semantics (it becomes the destination when it sat at `i`, shifts one step
toward `i` when it lay in the moved-over range, and is unchanged
otherwise). -/
theorem claim_C6_reorder_playlist (store : Storage) (st : EngineState)
    (name : String) (l : List Song) (pid : Nat) (i j : Nat)
    (hl : lookupPl st.playlists name = some l)
    (hlib : ¬ name = "Library")
    (hi : i < l.length) (hj : j < l.length)
    (hrow : store.playlists.find? (fun r => r.name == name) =
      some { id := pid, name := name })
    (hcp : st.current_playlist_name = some name →
      st.current_playlist.length = l.length) :
    (reorder_playlist true store st name (i : Int) (j : Int)).1 =
      .status "playlist_reordered" ∧
    lookupPl (reorder_playlist true store st name (i : Int) (j : Int)).2.2.playlists
      name = some (moveElem l i j) ∧
    (moveElem l i j).Perm l ∧
    moveElem (moveElem l i j) j i = l ∧
    lookupPl (reorder_playlist true
        (reorder_playlist true store st name (i : Int) (j : Int)).2.1
        (reorder_playlist true store st name (i : Int) (j : Int)).2.2
        name (j : Int) (i : Int)).2.2.playlists name = some l ∧
    rowsFor (reorder_playlist true store st name (i : Int) (j : Int)).2.1 pid =
      withPositions 0 (moveElem l i j) ∧
    (st.current_playlist_name = some name →
      (reorder_playlist true store st name (i : Int) (j : Int)).2.2.playlist_index =
        (if st.playlist_index = i then j
         else if i < st.playlist_index ∧ st.playlist_index ≤ j then
           st.playlist_index - 1
         else if j ≤ st.playlist_index ∧ st.playlist_index < i then
           st.playlist_index + 1
         else st.playlist_index)) ∧
    (¬ st.current_playlist_name = some name →
      (reorder_playlist true store st name (i : Int) (j : Int)).2.2.playlist_index =
        st.playlist_index) := by
  have hok := reorder_playlist_ok store st name l pid i j hl hlib hi hj hrow
  have hsome : (lookupPl st.playlists name).isSome = true := by rw [hl]; rfl
  have hmem : lookupPl (updatePl st.playlists name (moveElem l i j)) name =
      some (moveElem l i j) :=
    lookupPl_updatePl st.playlists name (moveElem l i j) hsome
  have hrows : rowsForL
      ((store.playlist_songs.filter (fun r => !(r.playlist_id == pid))) ++
        rowsFromList pid 0 (moveElem l i j)) pid =
      withPositions 0 (moveElem l i j) := by
    rw [rowsForL_append, rowsForL_filter_ne, rowsForL_rowsFromList]
    rfl
  have hmlen : (moveElem l i j).length = l.length := length_moveElem l i j hi hj
  refine ⟨?_, ?_, moveElem_perm l i j hi hj, moveElem_moveElem l i j hi hj,
    ?_, ?_, ?_, ?_⟩
  · rw [hok]
    by_cases hb : st.current_playlist_name = some name
    · rw [if_pos hb, if_pos (by rw [show st.current_playlist.length = l.length from hcp hb]; exact hi)]
    · rw [if_neg hb]
  · rw [hok]
    by_cases hb : st.current_playlist_name = some name
    · rw [if_pos hb, if_pos (by rw [show st.current_playlist.length = l.length from hcp hb]; exact hi)]
      exact hmem
    · rw [if_neg hb]
      exact hmem
  · -- the inverse move restores the stored list
    have hclf : st.current_playlist_name = some name → i < st.current_playlist.length :=
      fun hb => by rw [hcp hb]; exact hi
    have hmemr : lookupPl
        (reorder_playlist true store st name (i : Int) (j : Int)).2.2.playlists name =
        some (moveElem l i j) := by
      rw [hok]
      by_cases hb : st.current_playlist_name = some name
      · rw [if_pos hb, if_pos (hclf hb)]
        exact hmem
      · rw [if_neg hb]
        exact hmem
    have hrow2 : (reorder_playlist true store st name (i : Int)
        (j : Int)).2.1.playlists.find? (fun r => r.name == name) =
        some { id := pid, name := name } := by
      rw [hok]
      by_cases hb : st.current_playlist_name = some name
      · rw [if_pos hb, if_pos (hclf hb)]
        exact hrow
      · rw [if_neg hb]
        exact hrow
    have hok2 := reorder_playlist_ok
      (reorder_playlist true store st name (i : Int) (j : Int)).2.1
      (reorder_playlist true store st name (i : Int) (j : Int)).2.2
      name (moveElem l i j) pid j i hmemr hlib
      (by rw [hmlen]; exact hj) (by rw [hmlen]; exact hi) hrow2
    rw [hok2]
    have hname2 : (reorder_playlist true store st name (i : Int)
        (j : Int)).2.2.current_playlist_name = st.current_playlist_name := by
      rw [hok]
      by_cases hb : st.current_playlist_name = some name
      · rw [if_pos hb, if_pos (hclf hb)]
      · rw [if_neg hb]
    have htarget : lookupPl (updatePl
        (reorder_playlist true store st name (i : Int) (j : Int)).2.2.playlists
        name (moveElem (moveElem l i j) j i)) name = some l := by
      rw [moveElem_moveElem l i j hi hj]
      refine lookupPl_updatePl _ name l ?_
      rw [hmemr]
      rfl
    by_cases hb : st.current_playlist_name = some name
    · have hlen2 : j < (reorder_playlist true store st name (i : Int)
          (j : Int)).2.2.current_playlist.length := by
        rw [hok, if_pos hb, if_pos (hclf hb)]
        show j < (moveElem st.current_playlist i j).length
        rw [length_moveElem st.current_playlist i j (hclf hb)
          (by rw [hcp hb]; exact hj), hcp hb]
        exact hj
      rw [if_pos (by rw [hname2]; exact hb), if_pos hlen2]
      exact htarget
    · rw [if_neg (by rw [hname2]; exact hb)]
      exact htarget
  · rw [hok]
    by_cases hb : st.current_playlist_name = some name
    · rw [if_pos hb, if_pos (by rw [show st.current_playlist.length = l.length from hcp hb]; exact hi)]
      exact hrows
    · rw [if_neg hb]
      exact hrows
  · intro hb
    have hcl : i < st.current_playlist.length := by rw [hcp hb]; exact hi
    rw [hok, if_pos hb, if_pos hcl]
    exact natMoveIdx_eq st.playlist_index i j
  · intro hb
    rw [hok, if_neg hb]

/-- Engine state with a bound three-song playlist `R` at index 1, for the C6
witness. -/
def stC6 : EngineState :=
  { baseState with
    playlists := [("Library", [songA, songB, songC]), ("R", [songA, songB, songC])],
    current_playlist := [songA, songB, songC], current_playlist_name := some "R",
    playlist_index := 1, current_song := some songB, is_playing := true }

/-- The playlist database matching `stC6`. -/
def storeC6 : Storage :=
  { playlists := [{ id := 3, name := "R" }],
    playlist_songs := rowsFromList 3 0 [songA, songB, songC],
    nextPlaylistId := 4 }

theorem claim_C6_reorder_playlist_witness :
    (reorder_playlist true storeC6 stC6 "R" 0 2).1 = .status "playlist_reordered" ∧
    lookupPl (reorder_playlist true storeC6 stC6 "R" 0 2).2.2.playlists "R" =
      some [songB, songC, songA] ∧
    (reorder_playlist true storeC6 stC6 "R" 0 2).2.2.playlist_index = 0 := by
  have h := claim_C6_reorder_playlist storeC6 stC6 "R" [songA, songB, songC] 3 0 2
    (by decide) (by decide) (by decide) (by decide) (by decide) (by decide)
  exact ⟨h.1, h.2.1, h.2.2.2.2.2.2.1 (by decide)⟩

/-! The `music` table registration helper of `yt_db.py`. -/

/-- The `music` table with the AUTOINCREMENT id counter (`cur.lastrowid` of a
fresh insert). -/
structure MusicTable where
  rows : List MusicRow
  nextId : Nat
  deriving DecidableEq, Repr

/-- The helper `add_music_entry` of `yt_db.py`: normalizes the path with
`os.path.abspath` (passed in as `abspath`, the process-wide path
normalization), returns the id of an existing row for that path without
inserting, and otherwise inserts one new row and returns its fresh id.  The
optional fields keep their source defaults (`name or basename`). -/
def add_music_entry (abspath : String → String) (tbl : MusicTable)
    (file_location : String) (name : Option String) (singer : Option String)
    (duration : Option Nat) (genre : Option String) : Nat × MusicTable :=
  let fl := abspath file_location
  match tbl.rows.find? (fun r => r.file_location == fl) with
  | some r => (r.id, tbl)
  | none =>
    let row : MusicRow :=
      { id := tbl.nextId, name := name.getD (basename fl), file_location := fl,
        singer := singer, duration := duration, genre := genre }
    (tbl.nextId, { rows := tbl.rows ++ [row], nextId := tbl.nextId + 1 })

/-- C9: `add_music_entry` is idempotent on the normalized absolute path: when
a row for the path already exists the existing id is returned and the table is
untouched, and starting from a table without the path, two successive calls
return the same id and leave exactly one row for that path. -/
theorem claim_C9_add_music_idempotent (abspath : String → String)
    (tbl : MusicTable) (p : String) (nm sg : Option String) (du : Option Nat)
    (ge : Option String) :
    (∀ r, tbl.rows.find? (fun r2 => r2.file_location == abspath p) = some r →
      add_music_entry abspath tbl p nm sg du ge = (r.id, tbl)) ∧
    (tbl.rows.find? (fun r2 => r2.file_location == abspath p) = none →
      ((add_music_entry abspath tbl p nm sg du ge).1 = tbl.nextId ∧
       ((add_music_entry abspath tbl p nm sg du ge).2.rows.filter
          (fun r2 => r2.file_location == abspath p)).length = 1 ∧
       (add_music_entry abspath (add_music_entry abspath tbl p nm sg du ge).2
          p nm sg du ge).1 = (add_music_entry abspath tbl p nm sg du ge).1 ∧
       (add_music_entry abspath (add_music_entry abspath tbl p nm sg du ge).2
          p nm sg du ge).2 = (add_music_entry abspath tbl p nm sg du ge).2)) := by
  constructor
  · intro r hr
    unfold add_music_entry
    dsimp only
    rw [hr]
  · intro hnone
    have hfil : tbl.rows.filter (fun r2 => r2.file_location == abspath p) = [] := by
      rw [List.filter_eq_nil]
      intro a ha
      have := List.find?_eq_none.mp hnone a ha
      simpa using this
    have h1 : add_music_entry abspath tbl p nm sg du ge =
        (tbl.nextId,
         { rows := tbl.rows ++
             [{ id := tbl.nextId, name := nm.getD (basename (abspath p)),
                file_location := abspath p, singer := sg, duration := du,
                genre := ge }],
           nextId := tbl.nextId + 1 }) := by
      unfold add_music_entry
      dsimp only
      rw [hnone]
    have hfind2 : (tbl.rows ++
        [{ id := tbl.nextId, name := nm.getD (basename (abspath p)),
           file_location := abspath p, singer := sg, duration := du,
           genre := ge : MusicRow }]).find?
        (fun r2 => r2.file_location == abspath p) =
        some { id := tbl.nextId, name := nm.getD (basename (abspath p)),
               file_location := abspath p, singer := sg, duration := du,
               genre := ge } := by
      rw [List.find?_append, hnone]
      simp
    refine ⟨by rw [h1], ?_, ?_, ?_⟩
    · rw [h1]
      rw [List.filter_append, hfil]
      simp
    · rw [h1]
      unfold add_music_entry
      dsimp only
      rw [hfind2]
    · rw [h1]
      unfold add_music_entry
      dsimp only
      rw [hfind2]

/-- Sample normalization for the C9 witness: already-absolute paths are kept
as they are. -/
def absId (p : String) : String := p

/-- Empty music table for the C9 witness. -/
def tbl0 : MusicTable := { rows := [], nextId := 1 }

theorem claim_C9_add_music_idempotent_witness :
    tbl0.rows.find? (fun r2 => r2.file_location == absId "/m/a.mp3") = none ∧
    (add_music_entry absId tbl0 "/m/a.mp3" none none none none).1 = 1 ∧
    (add_music_entry absId
      (add_music_entry absId tbl0 "/m/a.mp3" none none none none).2
      "/m/a.mp3" none none none none).1 = 1 ∧
    ((add_music_entry absId
      (add_music_entry absId tbl0 "/m/a.mp3" none none none none).2
      "/m/a.mp3" none none none none).2.rows.filter
        (fun r2 => r2.file_location == absId "/m/a.mp3")).length = 1 := by
  have h := (claim_C9_add_music_idempotent absId tbl0 "/m/a.mp3"
    none none none none).2 rfl
  refine ⟨rfl, ?_, ?_, ?_⟩
  · rw [h.1]
    rfl
  · rw [h.2.2.1, h.1]
    rfl
  · rw [h.2.2.2]
    exact h.2.1

/-! History bound (C10). -/

theorem histAppend_length (h : List Song) (s : Song) (hb : h.length ≤ 50) :
    (histAppend h s).length ≤ 50 ∧
    (h.length = 50 → histAppend h s = h.tail ++ [s]) ∧
    (h.length < 50 → histAppend h s = h ++ [s]) := by
  refine ⟨?_, ?_, ?_⟩
  · unfold histAppend
    dsimp only
    split
    · rename_i hgt
      simp only [List.length_drop]
      omega
    · rename_i hle
      simp only [List.length_append] at hle ⊢
      omega
  · intro h50
    unfold histAppend
    dsimp only
    rw [if_pos (by simp only [List.length_append, List.length_singleton, h50]; omega)]
    rw [show (h ++ [s]).length - 50 = 1 by
      simp only [List.length_append, List.length_singleton, h50]]
    rw [List.drop_append_of_le_length (by omega), List.drop_one]
  · intro hlt
    unfold histAppend
    dsimp only
    rw [if_neg (by simp only [List.length_append, List.length_singleton]; omega)]

/-- C10: a successful `play_file` appends the new current song to the history;
the history never exceeds 50 entries, and at exactly 50 entries the oldest is
evicted while the order of the remaining entries is preserved. -/
theorem claim_C10_history_bound (fs : List String) (db : List MusicRow)
    (st : EngineState) (path : String) (hc : fs.contains path = true)
    (hb : st.history.length ≤ 50) :
    (∃ s, (play_file fs db st path).2.current_song = some s ∧
      (play_file fs db st path).2.history = histAppend st.history s) ∧
    (play_file fs db st path).2.history.length ≤ 50 ∧
    (st.history.length = 50 →
      (play_file fs db st path).2.history = st.history.tail ++
        [resolveSong db path]) ∧
    (st.history.length < 50 →
      (play_file fs db st path).2.history = st.history ++ [resolveSong db path]) := by
  have h := play_file_of_contains fs db st path hc
  have hh := histAppend_length st.history (resolveSong db path) hb
  refine ⟨⟨resolveSong db path, h.2.2.1, h.2.2.2⟩, ?_, ?_, ?_⟩
  · rw [h.2.2.2]
    exact hh.1
  · intro h50
    rw [h.2.2.2]
    exact hh.2.1 h50
  · intro hlt
    rw [h.2.2.2]
    exact hh.2.2 hlt

theorem claim_C10_history_bound_witness :
    fsAll.contains "/m/b.mp3" = true ∧ stC4.history.length ≤ 50 ∧
    (play_file fsAll [] stC4 "/m/b.mp3").2.history = [songA, songB] := by
  have h := claim_C10_history_bound fsAll [] stC4 "/m/b.mp3" rfl (by decide)
  refine ⟨rfl, by decide, ?_⟩
  rw [h.2.2.2 (by decide)]
  decide

end MusicPlayer
